import Mathlib

/-!
Verification of the scoring engine of `speaking-tutor-server` (src/score.js).

The file embeds the two `scoreAttempt` implementations of `src/score.js`
shallowly in Lean:

* JavaScript numbers are idealised as rationals (`ℚ`); an optional numeric
  field of the `audio` object is a `JNum`, which distinguishes an absent
  field (`undef`, JavaScript `undefined`/`null`) from a present non-finite
  one (`nan`, covering `NaN` and the infinities: every use in the source
  goes through `Number.isFinite` or `clamp01`, which treat all non-finite
  values alike).
* `Math.round(x)` is `round x = ⌊x + 1/2⌋` (both round half toward +∞);
  `Math.max`/`Math.min` on finite numbers are `max`/`min` on `ℚ`.
  Decimal constants of the source (`0.25`, `0.65`, …) are written as the
  equal fractions (`1/4`, `65/100`, …), which are exact in both `ℚ` and
  IEEE-754-free reading of the algorithm.
* Platform services (`Math.exp`, `String.normalize("NFKC")`,
  `toLocaleLowerCase`, `toLowerCase`, `trim`, `Intl.Segmenter`, and the
  Unicode letter/number class of the regex `\p{L}|\p{N}`) are an explicit
  environment `JSEnv`: theorems either hold for every environment or take
  the concrete Unicode facts they use as hypotheses.  `icuEnv` is a
  computable instantiation that agrees with the real platform on every
  concrete string appearing in this file (ASCII text and single CJK/Hangul
  characters, on which NFKC is the identity, `toLowerCase` is ASCII
  lower-casing and the word segmenter returns the maximal alphanumeric
  runs as word-like segments).
-/

/-- JavaScript `Math.max(0, Math.min(1, v))` for a finite `v`
(the body of `clamp01` in both copies of `score.js`). -/
def clamp01q (q : ℚ) : ℚ := max 0 (min 1 q)

/-- JavaScript `clamp100` of the first implementation:
`Math.max(0, Math.min(100, Math.round(v)))`. -/
def clamp100 (q : ℚ) : ℤ := max 0 (min 100 (round q))

/-- An optional JavaScript numeric field: absent (`undefined`/`null`),
present but non-finite (`NaN`, `±Infinity`), or a finite number. -/
inductive JNum where
  | undef : JNum
  | nan : JNum
  | num : ℚ → JNum
deriving DecidableEq, Repr

/-- JavaScript `Number.isFinite`. -/
def JNum.isFin : JNum → Bool
  | .num _ => true
  | _ => false

/-- JavaScript `x ?? d`: replaces only `undefined`/`null` by the default,
a present `NaN` is kept. -/
def JNum.coalesce : JNum → ℚ → JNum
  | .undef, d => .num d
  | v, _ => v

/-- The source's `clamp01` applied to a possibly non-finite value:
`Math.max(0, Math.min(1, Number.isFinite(v) ? v : 0))`. -/
def clamp01J : JNum → ℚ
  | .num q => clamp01q q
  | _ => 0

/-- Row `i + 1` of the Levenshtein table of `wordErrorRate`, as a function
of the column: `levPrev` is row `i`.  The entry for column `j + 1` is
`min(dp[i][j+1] + 1, dp[i+1][j] + 1, dp[i][j] + cost)` with
`cost = (refArr[i] === hypArr[j] ? 0 : 1)`, exactly the inner loop of the
source. -/
def levRow (refArr hypArr : List String) (levPrev : ℕ → ℕ) (i : ℕ) : ℕ → ℕ
  | 0 => i + 1
  | j + 1 =>
    min (levPrev (j + 1) + 1)
      (min (levRow refArr hypArr levPrev i j + 1)
        (levPrev j + if refArr.get? i = hypArr.get? j then 0 else 1))

/-- The Levenshtein table of `wordErrorRate` in `score.js`: `levDp r h i j`
is the value `dp[i][j]` defined by `dp[i][0] = i`, `dp[0][j] = j` and
`dp[i][j] = min(dp[i-1][j] + 1, dp[i][j-1] + 1, dp[i-1][j-1] + cost)`;
the loops of the source fill the table row by row with exactly this
recurrence. -/
def levDp (refArr hypArr : List String) : ℕ → ℕ → ℕ
  | 0 => fun j => j
  | i + 1 => levRow refArr hypArr (levDp refArr hypArr i) i

theorem levDp_zero (r h : List String) (j : ℕ) : levDp r h 0 j = j := rfl

theorem levDp_succ_zero (r h : List String) (i : ℕ) : levDp r h (i + 1) 0 = i + 1 := rfl

theorem levDp_succ_succ (r h : List String) (i j : ℕ) :
    levDp r h (i + 1) (j + 1) =
      min (levDp r h i (j + 1) + 1)
        (min (levDp r h (i + 1) j + 1)
          (levDp r h i j + if r.get? i = h.get? j then 0 else 1)) := rfl

/-- `wordErrorRate` of `score.js` (the identical function appears once in
each half of the file): `if (!n && !m) return 0; if (!n) return 1;` then
`dp[n][m] / Math.max(1, n)`. -/
def wordErrorRate (refArr hypArr : List String) : ℚ :=
  if refArr.length = 0 ∧ hypArr.length = 0 then 0
  else if refArr.length = 0 then 1
  else (levDp refArr hypArr refArr.length hypArr.length : ℚ) /
    max 1 (refArr.length : ℚ)

theorem levDp_self (X : List String) : ∀ i, levDp X X i i = 0 := by
  intro i
  induction i with
  | zero => rfl
  | succ i ih =>
    rw [levDp_succ_succ, if_pos rfl, ih]
    omega

theorem levDp_le_max (r h : List String) : ∀ i j, levDp r h i j ≤ max i j := by
  intro i
  induction i with
  | zero => intro j; rw [levDp_zero]; omega
  | succ i ih =>
    intro j
    induction j with
    | zero => rw [levDp_succ_zero]; omega
    | succ j ihj =>
      have h1 := ih (j + 1)
      have h3 := ih j
      rw [levDp_succ_succ]
      by_cases hc : r.get? i = h.get? j
      · rw [if_pos hc]; omega
      · rw [if_neg hc]; omega

theorem wordErrorRate_nonneg (r h : List String) : 0 ≤ wordErrorRate r h := by
  unfold wordErrorRate
  split
  · norm_num
  · split
    · norm_num
    · exact div_nonneg (by positivity) (le_trans zero_le_one (le_max_left _ _))

theorem wordErrorRate_self (X : List String) : wordErrorRate X X = 0 := by
  unfold wordErrorRate
  split
  · rfl
  · split
    · rename_i hn h0
      omega
    · rw [levDp_self X X.length]
      simp

theorem wordErrorRate_le_one_of_le (r h : List String) (hle : h.length ≤ r.length) :
    wordErrorRate r h ≤ 1 := by
  unfold wordErrorRate
  split
  · norm_num
  · split
    · norm_num
    · rename_i hboth hn
      have hnpos : 0 < r.length := Nat.pos_of_ne_zero hn
      have hd : levDp r h r.length h.length ≤ r.length := by
        have := levDp_le_max r h r.length h.length
        omega
      have hmax : max 1 (r.length : ℚ) = (r.length : ℚ) := by
        apply max_eq_right
        exact_mod_cast hnpos
      rw [hmax, div_le_one (by exact_mod_cast hnpos)]
      exact_mod_cast hd

/-- C1 (amended): `wordErrorRate` is nonnegative and vanishes on identical
sequences, and is at most 1 whenever the hypothesis is no longer than the
reference; the unconditional upper bound 1 of the claim fails (see the
counterexample). -/
theorem C1_wer_bounds (r h X : List String) :
    0 ≤ wordErrorRate r h ∧ wordErrorRate X X = 0 ∧
      (h.length ≤ r.length → wordErrorRate r h ≤ 1) :=
  ⟨wordErrorRate_nonneg r h, wordErrorRate_self X,
    fun hle => wordErrorRate_le_one_of_le r h hle⟩

/-- C1 counterexample: on reference `["a"]` and hypothesis `["b", "c"]` the
source returns `dp[1][2] / max(1,1) = 2`, outside `[0,1]`. -/
theorem C1_wer_cex :
    wordErrorRate ["a"] ["b", "c"] = 2 ∧ ¬ wordErrorRate ["a"] ["b", "c"] ≤ 1 := by
  have hd : levDp ["a"] ["b", "c"] 1 2 = 2 := by decide
  have h2 : wordErrorRate ["a"] ["b", "c"] = 2 := by
    unfold wordErrorRate
    norm_num [hd]
  refine ⟨h2, ?_⟩
  rw [h2]
  norm_num

/-- Characters matched by the Hangul test `/[가-힣]/` of `guessByText`
(U+AC00 – U+D7A3). -/
def isHangulChar (c : Char) : Bool := 0xAC00 ≤ c.toNat && c.toNat ≤ 0xD7A3

/-- The genuinely-kana part of the second character class of `guessByText`,
`[ぁ-ゔゞァ-ヾー]`: hiragana U+3041 – U+3094, U+309E, katakana
U+30A1 – U+30FE and U+30FC. -/
def pureKanaChar (c : Char) : Bool :=
  (0x3041 ≤ c.toNat && c.toNat ≤ 0x3094) || c.toNat = 0x309E ||
    (0x30A1 ≤ c.toNat && c.toNat ≤ 0x30FE) || c.toNat = 0x30FC

/-- The final range `一-龯` (U+4E00 – U+9FAF) of the second character class
of `guessByText`: these are CJK ideographs, not kana. -/
def cjkExtChar (c : Char) : Bool := 0x4E00 ≤ c.toNat && c.toNat ≤ 0x9FAF

/-- The full second character class `[ぁ-ゔゞァ-ヾー一-龯]` of
`guessByText`, exactly as the regex lists it. -/
def kanaCJKChar (c : Char) : Bool := pureKanaChar c || cjkExtChar c

/-- Characters matched by the third test `/[一-龥]/` of `guessByText`
(U+4E00 – U+9FA5). -/
def cjkBaseChar (c : Char) : Bool := 0x4E00 ≤ c.toNat && c.toNat ≤ 0x9FA5

/-- Characters matched by `/[a-zA-Z]/`. -/
def latinChar (c : Char) : Bool :=
  (0x61 ≤ c.toNat && c.toNat ≤ 0x7A) || (0x41 ≤ c.toNat && c.toNat ≤ 0x5A)

/-- `guessByText` of `score.js` (both implementations contain the identical
function).  A JavaScript regex character-class test `/[…]/.test(s)` holds
iff some UTF-16 unit of `s` lies in the class; all classes here are inside
the BMP and disjoint from the surrogate range, so the test is equivalent
to a per-code-point scan. -/
def guessByText (s : String) : String :=
  if s.data.any isHangulChar then "ko-KR"
  else if s.data.any kanaCJKChar then "ja-JP"
  else if s.data.any cjkBaseChar then "zh-CN"
  else if s.data.any latinChar then "en-US"
  else "en-US"

theorem cjkBase_subset_kanaCJK (c : Char) (h : cjkBaseChar c = true) :
    kanaCJKChar c = true := by
  simp only [cjkBaseChar, Bool.and_eq_true, decide_eq_true_eq] at h
  simp only [kanaCJKChar, cjkExtChar, Bool.or_eq_true, Bool.and_eq_true,
    decide_eq_true_eq]
  omega

/-- C2 (amended): `guessByText` classifies Hangul as `"ko-KR"`, but the
second regex class contains the whole CJK-ideograph range U+4E00 – U+9FAF,
so any text with a CJK ideograph and no Hangul is classified `"ja-JP"`;
the `"zh-CN"` branch is unreachable (its range U+4E00 – U+9FA5 is a subset
of the second class), and text with neither Hangul, kana nor CJK
ideographs is classified `"en-US"`. -/
theorem C2_guessByText_amended (s : String) :
    guessByText s ≠ "zh-CN" ∧
      ((∃ c ∈ s.data, isHangulChar c) → guessByText s = "ko-KR") ∧
      ((¬ ∃ c ∈ s.data, isHangulChar c) →
        (∃ c ∈ s.data, pureKanaChar c ∨ cjkExtChar c) → guessByText s = "ja-JP") ∧
      ((¬ ∃ c ∈ s.data, isHangulChar c) →
        (¬ ∃ c ∈ s.data, pureKanaChar c ∨ cjkExtChar c) → guessByText s = "en-US") := by
  have hanyKana : s.data.any kanaCJKChar = true ↔
      ∃ c ∈ s.data, pureKanaChar c ∨ cjkExtChar c := by
    simp [List.any_eq_true, kanaCJKChar]
  constructor
  · unfold guessByText
    split
    · simp
    · split
      · simp
      · split
        · rename_i hk hc
          exfalso
          apply hk
          rw [List.any_eq_true] at hc ⊢
          obtain ⟨c, hmem, hcc⟩ := hc
          exact ⟨c, hmem, cjkBase_subset_kanaCJK c hcc⟩
        · split <;> simp
  · refine ⟨?_, ?_, ?_⟩
    · intro h
      unfold guessByText
      rw [if_pos (by rw [List.any_eq_true]; simpa using h)]
    · intro hno hyes
      unfold guessByText
      rw [if_neg (by rw [List.any_eq_true]; simpa using hno),
        if_pos (hanyKana.mpr hyes)]
    · intro hno hyes
      unfold guessByText
      rw [if_neg (by rw [List.any_eq_true]; simpa using hno),
        if_neg (by rw [hanyKana]; exact hyes)]
      rw [if_neg ?_]
      · split <;> rfl
      · intro hc
        apply hyes
        rw [List.any_eq_true] at hc
        obtain ⟨c, hmem, hcc⟩ := hc
        have := cjkBase_subset_kanaCJK c hcc
        simp only [kanaCJKChar, Bool.or_eq_true] at this
        exact ⟨c, hmem, by simpa using this⟩

/-- C2 counterexample: the single CJK ideograph `中` (U+4E2D, no kana, no
Hangul) is classified `"ja-JP"`, not `"zh-CN"` as the claim states. -/
theorem C2_guessByText_cex :
    guessByText "中" = "ja-JP" ∧ guessByText "中" ≠ "zh-CN" := by
  constructor
  · decide
  · decide

/-- Witness for C2: the amended classification applied at concrete
inputs. -/
theorem C2_guessByText_witness :
    guessByText "안" = "ko-KR" ∧ guessByText "中" = "ja-JP" ∧
      guessByText "hi" = "en-US" :=
  ⟨(C2_guessByText_amended "안").2.1 (by decide),
    (C2_guessByText_amended "中").2.2.1 (by decide) (by decide),
    (C2_guessByText_amended "hi").2.2.2 (by decide) (by decide)⟩

/-- The platform services used by `score.js`, made explicit: `exp` is
`Math.exp`; `nfkc` is `String.prototype.normalize("NFKC")`; `lowerLoc` is
`toLocaleLowerCase(locale)`; `lower` is `toLowerCase()`; `trimStr` is
`trim()`; `alnum c` is the regex class `\p{L}|\p{N}` at `c`; and
`segment loc t` is `Intl.Segmenter(loc, {granularity:"word"}).segment(t)`
as a list of `(segment, isWordLike)` pairs, `none` when the constructor
throws (the `catch` branch of `tokenize`). -/
structure JSEnv where
  exp : ℚ → ℚ
  nfkc : String → String
  lowerLoc : String → String → String
  lower : String → String
  trimStr : String → String
  alnum : Char → Bool
  segment : String → String → Option (List (String × Bool))

/-- A separator of the fallback tokenizer: the character class
`[\s.,!?;:()'"、。！？…·【】「」『』—–-]` of both `tokenize` fallbacks
(`\s` is modelled by `Char.isWhitespace`, which agrees with the JavaScript
class on ASCII whitespace). -/
def fallbackSep (c : Char) : Bool :=
  c.isWhitespace || ".,!?;:()".contains c || c = Char.ofNat 34 ||
    c = Char.ofNat 39 || "、。！？…·【】「」『』—–-".contains c

/-- The fallback branch of `tokenize`:
`t.split(/[…]+/u).filter(Boolean)`.  JavaScript's split on a
one-or-more-separators regex yields the maximal non-separator runs plus
empty strings only at the edges, all removed by `filter(Boolean)`;
splitting on single separators and dropping the empty pieces is the same
list. -/
def fallbackSplit (t : String) : List String :=
  (t.split fallbackSep).filter (fun p => p ≠ "")

/-- The loop body of `tokenize` over the segments: keep segments with
`isWordLike` that match `/\p{L}|\p{N}/u` (some character in the Unicode
letter/number class), in order, and return their texts. -/
def tokenizeSegs (alnum : Char → Bool) (segs : List (String × Bool)) : List String :=
  (segs.filter (fun p => p.2 && p.1.data.any alnum)).map Prod.fst

/-- `tokenize` of the first implementation: `norm` there is
`String(s ?? "").normalize("NFKC")` — no lower-casing, no trim. -/
def tokenize1 (env : JSEnv) (text loc : String) : List String :=
  match env.segment loc (env.nfkc text) with
  | some segs => tokenizeSegs env.alnum segs
  | none => fallbackSplit (env.nfkc text)

/-- `norm` of the second implementation:
`(s || "").normalize("NFKC").toLocaleLowerCase(l).trim()`. -/
def norm2 (env : JSEnv) (loc s : String) : String :=
  env.trimStr (env.lowerLoc loc (env.nfkc s))

/-- `tokenize` of the second implementation. -/
def tokenize2 (env : JSEnv) (text loc : String) : List String :=
  match env.segment loc (norm2 env loc text) with
  | some segs => tokenizeSegs env.alnum segs
  | none => fallbackSplit (norm2 env loc text)

/-- The `en` stop-word set of the first implementation. -/
def stopEn1 : List String :=
  ["a", "an", "the", "is", "are", "am", "to", "of", "in", "on", "for", "and",
    "or", "with", "that", "this", "it", "you", "i", "me", "my", "your"]

/-- The `es` stop-word set of the first implementation. -/
def stopEs1 : List String :=
  ["el", "la", "los", "las", "un", "una", "unos", "unas", "y", "o", "de",
    "del", "a", "en", "con", "que", "es", "soy", "eres"]

/-- `STOP[langKey] || new Set()` of the first implementation: `ko` and `ja`
hold empty sets and a missing key yields `new Set()`, so every key other
than `en`/`es` maps to the empty set. -/
def STOP1 (k : String) : List String :=
  if k = "en" then stopEn1 else if k = "es" then stopEs1 else []

/-- The `en` stop-word set of the second implementation (note: it differs
from the first implementation's). -/
def stopEn2 : List String :=
  ["a", "an", "the", "to", "of", "in", "on", "at", "and", "or", "is", "are",
    "am", "was", "were", "be", "been", "being", "i", "you", "he", "she",
    "it", "we", "they", "that", "this", "for", "with", "do", "does", "did"]

/-- The `ko` stop-word set of the second implementation. -/
def stopKo2 : List String :=
  ["은", "는", "이", "가", "을", "를", "에", "에서", "에게", "그리고", "또",
    "또는", "하지만", "이다", "입니다", "했어요", "하세요"]

/-- The `ja` stop-word set of the second implementation. -/
def stopJa2 : List String :=
  ["は", "が", "を", "に", "へ", "と", "も", "や", "の", "です", "ます",
    "そして", "でした", "ください"]

/-- The `zh` stop-word set of the second implementation. -/
def stopZh2 : List String :=
  ["的", "了", "在", "和", "或", "是", "有", "我", "你", "他", "她", "它", "们"]

/-- `stop[langKey] || new Set()` of the second implementation. -/
def STOP2 (k : String) : List String :=
  if k = "en" then stopEn2
  else if k = "ko" then stopKo2
  else if k = "ja" then stopJa2
  else if k = "zh" then stopZh2
  else []

/-- The `audio` argument of `scoreAttempt`:
`{ wpm, ms, silenceRatio, pitchStd, pitchMean }`, every field optional. -/
structure Audio where
  wpm : JNum := .undef
  ms : JNum := .undef
  silenceRatio : JNum := .undef
  pitchStd : JNum := .undef
  pitchMean : JNum := .undef
deriving DecidableEq, Repr

/-- The argument object of `scoreAttempt` (the first implementation's
destructuring defaults; the second has no defaults but is only applied to
proper strings here). -/
structure ScoreInput where
  transcript : String := ""
  targetText : String := ""
  lang : String := "auto"
  audio : Audio := {}

/-- The `meta` record of the result. -/
@[ext]
structure ScoreMeta where
  lang : String
  tokensRef : ℕ
  tokensHyp : ℕ
  wer : Option ℚ
  wpm : ℚ
  silence : ℚ
  pitchStd : ℚ
  pitchMean : ℚ
  missing : List String
deriving DecidableEq, Repr

/-- The result of `scoreAttempt`. -/
@[ext]
structure ScoreResult where
  total : ℤ
  pronunciation : ℤ
  fluency : ℤ
  prosody : ℤ
  grammar : ℤ
  feedback : List String
  meta : ScoreMeta
deriving DecidableEq, Repr

/-- `hasTarget` of both implementations: `refTokens.length >= 3`. -/
def hasRef (refT : List String) : Bool := 3 ≤ refT.length

/-- The `wer` variable: initialised to 1, overwritten by
`wordErrorRate(refFiltered, hypFiltered)` when `hasTarget`. -/
def werOf (refT refF hypF : List String) : ℚ :=
  if hasRef refT then wordErrorRate refF hypF else 1

/-- `pron_word`: free-talk default 0.8, else `clamp01(1 - wer)`. -/
def pronWordOf (refT refF hypF : List String) : ℚ :=
  if hasRef refT then clamp01q (1 - werOf refT refF hypF) else 8/10

/-- `pron_phon`: free-talk default 0.85, else
`clamp01(0.8 * pron_word + 0.2)`. -/
def pronPhonOf (refT refF hypF : List String) : ℚ :=
  if hasRef refT then clamp01q (8/10 * pronWordOf refT refF hypF + 2/10) else 85/100

/-- `keyTokens = refFiltered.filter((w) => w.length > 1)` (string length in
code points; the source counts UTF-16 units, which agree on every token
considered in this file). -/
def keyTokensOf (refF : List String) : List String :=
  refF.filter (fun w => 1 < w.length)

/-- `missing = keyTokens.filter((w) => !hypFiltered.includes(w))`, computed
only when `hasTarget` (else it stays `[]`). -/
def missingOf (refT refF hypF : List String) : List String :=
  if hasRef refT then (keyTokensOf refF).filter (fun w => ! hypF.contains w) else []

/-- `grammar`: 1 without a target, else
`clamp01(keyTokens.length ? 1 - miss / keyTokens.length : 1)`. -/
def grammarOf (refT refF hypF : List String) : ℚ :=
  if hasRef refT then
    clamp01q
      (if (keyTokensOf refF).length ≠ 0 then
        1 - ((missingOf refT refF hypF).length : ℚ) / ((keyTokensOf refF).length : ℚ)
      else 1)
  else 1

/-- The length of `transcript.trim().split(/\s+/)` as used under
`Math.max(1, ·)`: the number of maximal non-whitespace runs (0 for an
all-whitespace string, where JavaScript reports 1 — `Math.max(1, ·)` makes
the two readings equal). -/
def wsWordCount (s : String) : ℕ :=
  ((s.split Char.isWhitespace).filter (fun p => p ≠ "")).length

/-- `const words = hypTokens.length || Math.max(1, transcript.trim().split(/\s+/).length)`. -/
def wordsOf (transcript : String) (hypT : List String) : ℕ :=
  if hypT.length ≠ 0 then hypT.length else max 1 (wsWordCount transcript)

/-- The resolved `wpm`: the provided finite value; else, when `audio.ms` is
finite and positive, `Math.round(words / (ms / 60000))`; else 120. -/
def wpmOf (transcript : String) (hypT : List String) (a : Audio) : ℚ :=
  match a.wpm with
  | .num q => q
  | _ =>
    match a.ms with
    | .num ms =>
      if 0 < ms then ((round ((wordsOf transcript hypT : ℚ) / (ms / 60000)) : ℤ) : ℚ)
      else 120
    | _ => 120

/-- `speedScore = 1 / (1 + Math.exp(-(wpm - 135) / 25))`. -/
def speedScoreOf (E : ℚ → ℚ) (wpm : ℚ) : ℚ := 1 / (1 + E (-(wpm - 135) / 25))

/-- `speed = clamp01(1 - 2 * Math.abs(speedScore - 0.75))`. -/
def speedOf (E : ℚ → ℚ) (wpm : ℚ) : ℚ :=
  clamp01q (1 - 2 * |speedScoreOf E wpm - 75/100|)

/-- `silence = clamp01(audio.silenceRatio ?? 0.15)`.  Note: `??` does not
replace a present `NaN`, and `clamp01` maps non-finite values to 0, not to
the 0.15 default. -/
def silenceOf (a : Audio) : ℚ := clamp01J (a.silenceRatio.coalesce (15/100))

/-- `fluency = clamp01(0.65 * speed + 0.35 * (1 - silence))`. -/
def fluencyOf (E : ℚ → ℚ) (transcript : String) (hypT : List String) (a : Audio) : ℚ :=
  clamp01q (65/100 * speedOf E (wpmOf transcript hypT a) + 35/100 * (1 - silenceOf a))

/-- `pitchStd = Number.isFinite(audio.pitchStd) ? audio.pitchStd : 30`. -/
def pitchStdOf (a : Audio) : ℚ :=
  match a.pitchStd with
  | .num q => q
  | _ => 30

/-- `pitchMean = Number.isFinite(audio.pitchMean) ? Math.max(1, audio.pitchMean) : 150`. -/
def pitchMeanOf (a : Audio) : ℚ :=
  match a.pitchMean with
  | .num q => max 1 q
  | _ => 150

/-- `prosody = clamp01((pitchStd / pitchMean - 0.06) / 0.16)`. -/
def prosodyOf (a : Audio) : ℚ :=
  clamp01q ((pitchStdOf a / pitchMeanOf a - 6/100) / (16/100))

/-- `Pron = clamp01(0.6 * pron_word + 0.4 * pron_phon)`. -/
def PronOf (refT refF hypF : List String) : ℚ :=
  clamp01q (6/10 * pronWordOf refT refF hypF + 4/10 * pronPhonOf refT refF hypF)

/-- The aggregation weights `wPron`, `wFlu`, `wPro`, `wGrm`, keyed by
`hasTarget`. -/
def wPronOf (refT : List String) : ℚ := if hasRef refT then 40/100 else 25/100

def wFluOf (refT : List String) : ℚ := if hasRef refT then 30/100 else 45/100

def wProOf (refT : List String) : ℚ := if hasRef refT then 15/100 else 20/100

def wGrmOf (refT : List String) : ℚ := if hasRef refT then 15/100 else 10/100

/-- `total01 = clamp01(wPron*Pron + wFlu*fluency + wPro*prosody + wGrm*grammar)`. -/
def total01Of (E : ℚ → ℚ) (transcript : String) (refT hypT refF hypF : List String)
    (a : Audio) : ℚ :=
  clamp01q
    (wPronOf refT * PronOf refT refF hypF +
      wFluOf refT * fluencyOf E transcript hypT a +
      wProOf refT * prosodyOf a +
      wGrmOf refT * grammarOf refT refF hypF)

/-- The five feedback strings of both implementations (identical text). -/
def fbWer : String := "핵심 단어를 또렷하게 말해보자!"

def fbSilence : String := "말 사이의 쉬는 시간을 조금만 줄여볼까?"

def fbSpeed : String := "조금 더 리듬 있게! 110~160 WPM 속도를 목표로 해봐."

def fbGrammar : String := "질문에 필요한 단어가 몇 개 빠졌어."

/-- The missing-keywords entry: the template literal
`이 단어들을 꼭 넣어보자: missing.slice(0, 3).join(", ")`. -/
def fbMissingOf (missing : List String) : String :=
  "이 단어들을 꼭 넣어보자: " ++ String.intercalate ", " (missing.take 3)

/-- The feedback list before the cap, pushed by the five threshold rules in
source order. -/
def rawFeedback (E : ℚ → ℚ) (transcript : String) (refT hypT refF hypF : List String)
    (a : Audio) : List String :=
  (if hasRef refT ∧ werOf refT refF hypF > 25/100 then [fbWer] else []) ++
    (if silenceOf a > 35/100 then [fbSilence] else []) ++
    (if speedOf E (wpmOf transcript hypT a) < 45/100 then [fbSpeed] else []) ++
    (if hasRef refT ∧ grammarOf refT refF hypF < 8/10 then [fbGrammar] else []) ++
    (if hasRef refT ∧ missingOf refT refF hypF ≠ [] then
      [fbMissingOf (missingOf refT refF hypF)] else [])

/-- `while (feedback.length > 4) feedback.pop();` — repeatedly drop the
last entry while more than 4 remain. -/
def capFeedback (l : List String) : List String :=
  if _h4 : 4 < l.length then capFeedback l.dropLast else l
termination_by l.length
decreasing_by
  simp only [List.length_dropLast]
  omega

/-- `+wer.toFixed(3)` for the nonnegative values occurring here: rounding
to 3 decimal places. -/
def toFixed3 (q : ℚ) : ℚ := ((round (q * 1000) : ℤ) : ℚ) / 1000

/-- The final scaling of a sub-score: the first implementation clamps
(`clamp100`), the second rounds (`Math.round`). -/
def scaleScore (useClamp : Bool) (q : ℚ) : ℤ :=
  if useClamp then clamp100 q else round q

/-- The numeric phase shared verbatim by the two implementations (lines
79–157 and 217–298 of `score.js` are identical except for `clamp100`
versus `Math.round`, selected by `useClamp`). -/
def numericCore (E : ℚ → ℚ) (useClamp : Bool) (transcript guessLocale : String)
    (refT hypT refF hypF : List String) (a : Audio) : ScoreResult where
  total := scaleScore useClamp (total01Of E transcript refT hypT refF hypF a * 100)
  pronunciation := scaleScore useClamp (PronOf refT refF hypF * 100)
  fluency := scaleScore useClamp (fluencyOf E transcript hypT a * 100)
  prosody := scaleScore useClamp (prosodyOf a * 100)
  grammar := scaleScore useClamp (grammarOf refT refF hypF * 100)
  feedback := capFeedback (rawFeedback E transcript refT hypT refF hypF a)
  meta :=
    { lang := guessLocale
      tokensRef := refT.length
      tokensHyp := hypT.length
      wer := if hasRef refT then some (toFixed3 (werOf refT refF hypF)) else none
      wpm := wpmOf transcript hypT a
      silence := silenceOf a
      pitchStd := pitchStdOf a
      pitchMean := pitchMeanOf a
      missing := if hasRef refT then (missingOf refT refF hypF).take 5 else [] }

/-- `lang === "auto" ? guessByText(targetText || transcript) : lang`
(identical in both implementations). -/
def guessLocaleOf (lang targetText transcript : String) : String :=
  if lang = "auto" then
    guessByText (if targetText = "" then transcript else targetText)
  else lang

def localeOf (inp : ScoreInput) : String :=
  guessLocaleOf inp.lang inp.targetText inp.transcript

/-- `langKey` of the first implementation:
`String(guessLocale || "").slice(0, 2).toLowerCase()`. -/
def langKey1 (env : JSEnv) (inp : ScoreInput) : String :=
  env.lower ((localeOf inp).take 2)

def refTokens1 (env : JSEnv) (inp : ScoreInput) : List String :=
  tokenize1 env inp.targetText (localeOf inp)

def hypTokens1 (env : JSEnv) (inp : ScoreInput) : List String :=
  tokenize1 env inp.transcript (localeOf inp)

/-- `refFiltered` of the first implementation:
`refTokens.filter((w) => !sw.has(w.toLowerCase()))`. -/
def refFiltered1 (env : JSEnv) (inp : ScoreInput) : List String :=
  (refTokens1 env inp).filter
    (fun w => ! (STOP1 (langKey1 env inp)).contains (env.lower w))

def hypFiltered1 (env : JSEnv) (inp : ScoreInput) : List String :=
  (hypTokens1 env inp).filter
    (fun w => ! (STOP1 (langKey1 env inp)).contains (env.lower w))

/-- The first `scoreAttempt` of `score.js` (lines 1–158). -/
def scoreAttempt1 (env : JSEnv) (inp : ScoreInput) : ScoreResult :=
  numericCore env.exp true inp.transcript (localeOf inp) (refTokens1 env inp)
    (hypTokens1 env inp) (refFiltered1 env inp) (hypFiltered1 env inp) inp.audio

/-- `langKey` of the second implementation:
`(guessLocale || "").slice(0, 2)` — no lower-casing. -/
def langKey2 (inp : ScoreInput) : String := (localeOf inp).take 2

def refTokens2 (env : JSEnv) (inp : ScoreInput) : List String :=
  tokenize2 env inp.targetText (localeOf inp)

def hypTokens2 (env : JSEnv) (inp : ScoreInput) : List String :=
  tokenize2 env inp.transcript (localeOf inp)

/-- `refFiltered` of the second implementation:
`refTokens.filter((w) => !sw.has(w))` — no lower-casing of the token. -/
def refFiltered2 (env : JSEnv) (inp : ScoreInput) : List String :=
  (refTokens2 env inp).filter (fun w => ! (STOP2 (langKey2 inp)).contains w)

def hypFiltered2 (env : JSEnv) (inp : ScoreInput) : List String :=
  (hypTokens2 env inp).filter (fun w => ! (STOP2 (langKey2 inp)).contains w)

/-- The second `scoreAttempt` of `score.js` (lines 162–299). -/
def scoreAttempt2 (env : JSEnv) (inp : ScoreInput) : ScoreResult :=
  numericCore env.exp false inp.transcript (localeOf inp) (refTokens2 env inp)
    (hypTokens2 env inp) (refFiltered2 env inp) (hypFiltered2 env inp) inp.audio

/-- Maximal runs of characters agreeing on `p`, each with its `p`-value:
the word segmentation the platform performs on the alphabetic/space texts
used in this file. -/
def groupRuns (p : Char → Bool) : List Char → List (String × Bool)
  | [] => []
  | c :: cs =>
    match groupRuns p cs with
    | [] => [(String.singleton c, p c)]
    | (s, b) :: rest =>
      if p c = b then (String.singleton c ++ s, b) :: rest
      else (String.singleton c, p c) :: (s, b) :: rest

/-- Per-character ASCII lower-casing, the restriction of
`toLowerCase`/`toLocaleLowerCase` to the ASCII strings used here. -/
def asciiLower (s : String) : String := String.mk (s.data.map Char.toLower)

/-- Strip leading and trailing whitespace from a character list. -/
def trimCharList (l : List Char) : List Char :=
  ((l.dropWhile Char.isWhitespace).reverse.dropWhile Char.isWhitespace).reverse

/-- `trim()` restricted to ASCII whitespace. -/
def asciiTrim (s : String) : String := String.mk (trimCharList s.data)

/-- A computable instantiation of the platform: it agrees with ICU/Unicode
on every concrete string evaluated in this file (ASCII text, on which NFKC
is the identity, `toLocaleLowerCase`/`toLowerCase` are ASCII lower-casing,
`trim` strips ASCII whitespace, the `\p{L}|\p{N}` class is ASCII
alphanumeric, and word segmentation returns the maximal alphanumeric runs
as the word-like segments).  `exp` is an arbitrary stand-in: no statement
evaluated at `icuEnv` depends on the value of `Math.exp` except through
bounds that hold for every function. -/
def icuEnv : JSEnv where
  exp := fun _ => 1
  nfkc := id
  lowerLoc := fun _ s => asciiLower s
  lower := asciiLower
  trimStr := asciiTrim
  alnum := Char.isAlphanum
  segment := fun _ t => some (groupRuns Char.isAlphanum t.data)

theorem clamp01q_nonneg (q : ℚ) : 0 ≤ clamp01q q := le_max_left 0 _

theorem clamp01q_le_one (q : ℚ) : clamp01q q ≤ 1 :=
  max_le (by norm_num) (min_le_left 1 q)

theorem clamp01q_eq_self (q : ℚ) (h0 : 0 ≤ q) (h1 : q ≤ 1) : clamp01q q = q := by
  unfold clamp01q
  rw [min_eq_right h1, max_eq_right h0]

theorem round_nonneg_q (q : ℚ) (h : 0 ≤ q) : 0 ≤ round q := by
  rw [round_eq]
  exact Int.floor_nonneg.mpr (by linarith)

theorem round_le_hundred (q : ℚ) (h : q ≤ 100) : round q ≤ 100 := by
  rw [round_eq]
  have : (⌊q + 1 / 2⌋ : ℤ) < 101 := by
    rw [Int.floor_lt]
    push_cast
    linarith
  omega

theorem clamp100_mem (q : ℚ) : 0 ≤ clamp100 q ∧ clamp100 q ≤ 100 :=
  ⟨le_max_left 0 _, max_le (by norm_num) (min_le_left 100 _)⟩

theorem scaleScore_mem (u : Bool) (q : ℚ) (h0 : 0 ≤ q) (h1 : q ≤ 100) :
    0 ≤ scaleScore u q ∧ scaleScore u q ≤ 100 := by
  cases u with
  | true => exact clamp100_mem q
  | false =>
    unfold scaleScore
    exact ⟨round_nonneg_q q h0, round_le_hundred q h1⟩

theorem scaleScore_clamp_eq_round (q : ℚ) (h0 : 0 ≤ q) (h1 : q ≤ 100) :
    scaleScore true q = scaleScore false q := by
  unfold scaleScore clamp100
  rw [if_pos rfl, if_neg (by simp)]
  rw [min_eq_right (round_le_hundred q h1), max_eq_right (round_nonneg_q q h0)]

theorem grammarOf_mem (refT refF hypF : List String) :
    0 ≤ grammarOf refT refF hypF ∧ grammarOf refT refF hypF ≤ 1 := by
  unfold grammarOf
  split
  · exact ⟨clamp01q_nonneg _, clamp01q_le_one _⟩
  · norm_num

theorem scaleScore_unit_mem (u : Bool) (x : ℚ) (h0 : 0 ≤ x) (h1 : x ≤ 1) :
    0 ≤ scaleScore u (x * 100) ∧ scaleScore u (x * 100) ≤ 100 :=
  scaleScore_mem u (x * 100) (by linarith) (by linarith)

theorem numericCore_range (E : ℚ → ℚ) (u : Bool) (t loc : String)
    (refT hypT refF hypF : List String) (a : Audio) :
    (0 ≤ (numericCore E u t loc refT hypT refF hypF a).total ∧
      (numericCore E u t loc refT hypT refF hypF a).total ≤ 100) ∧
    (0 ≤ (numericCore E u t loc refT hypT refF hypF a).pronunciation ∧
      (numericCore E u t loc refT hypT refF hypF a).pronunciation ≤ 100) ∧
    (0 ≤ (numericCore E u t loc refT hypT refF hypF a).fluency ∧
      (numericCore E u t loc refT hypT refF hypF a).fluency ≤ 100) ∧
    (0 ≤ (numericCore E u t loc refT hypT refF hypF a).prosody ∧
      (numericCore E u t loc refT hypT refF hypF a).prosody ≤ 100) ∧
    (0 ≤ (numericCore E u t loc refT hypT refF hypF a).grammar ∧
      (numericCore E u t loc refT hypT refF hypF a).grammar ≤ 100) := by
  refine ⟨?_, ?_, ?_, ?_, ?_⟩
  · exact scaleScore_unit_mem u _ (clamp01q_nonneg _) (clamp01q_le_one _)
  · exact scaleScore_unit_mem u _ (clamp01q_nonneg _) (clamp01q_le_one _)
  · exact scaleScore_unit_mem u _ (clamp01q_nonneg _) (clamp01q_le_one _)
  · exact scaleScore_unit_mem u _ (clamp01q_nonneg _) (clamp01q_le_one _)
  · exact scaleScore_unit_mem u _ (grammarOf_mem refT refF hypF).1
      (grammarOf_mem refT refF hypF).2

/-- C4 (confirmed): for every environment and every input — any transcript,
reference, language hint and audio object, malformed fields included —
each of the four sub-scores and the total returned by either
implementation lies in `[0, 100]`. -/
theorem C4_range (env : JSEnv) (inp : ScoreInput) :
    (0 ≤ (scoreAttempt1 env inp).total ∧ (scoreAttempt1 env inp).total ≤ 100) ∧
    (0 ≤ (scoreAttempt1 env inp).pronunciation ∧
      (scoreAttempt1 env inp).pronunciation ≤ 100) ∧
    (0 ≤ (scoreAttempt1 env inp).fluency ∧ (scoreAttempt1 env inp).fluency ≤ 100) ∧
    (0 ≤ (scoreAttempt1 env inp).prosody ∧ (scoreAttempt1 env inp).prosody ≤ 100) ∧
    (0 ≤ (scoreAttempt1 env inp).grammar ∧ (scoreAttempt1 env inp).grammar ≤ 100) ∧
    (0 ≤ (scoreAttempt2 env inp).total ∧ (scoreAttempt2 env inp).total ≤ 100) ∧
    (0 ≤ (scoreAttempt2 env inp).pronunciation ∧
      (scoreAttempt2 env inp).pronunciation ≤ 100) ∧
    (0 ≤ (scoreAttempt2 env inp).fluency ∧ (scoreAttempt2 env inp).fluency ≤ 100) ∧
    (0 ≤ (scoreAttempt2 env inp).prosody ∧ (scoreAttempt2 env inp).prosody ≤ 100) ∧
    (0 ≤ (scoreAttempt2 env inp).grammar ∧ (scoreAttempt2 env inp).grammar ≤ 100) := by
  have h1 := numericCore_range env.exp true inp.transcript (localeOf inp)
    (refTokens1 env inp) (hypTokens1 env inp) (refFiltered1 env inp)
    (hypFiltered1 env inp) inp.audio
  have h2 := numericCore_range env.exp false inp.transcript (localeOf inp)
    (refTokens2 env inp) (hypTokens2 env inp) (refFiltered2 env inp)
    (hypFiltered2 env inp) inp.audio
  exact ⟨h1.1, h1.2.1, h1.2.2.1, h1.2.2.2.1, h1.2.2.2.2,
    h2.1, h2.2.1, h2.2.2.1, h2.2.2.2.1, h2.2.2.2.2⟩

theorem capFeedback_eq_take_aux :
    ∀ (n : ℕ) (l : List String), l.length ≤ n → capFeedback l = l.take 4 := by
  intro n
  induction n with
  | zero =>
    intro l hl
    have : l = [] := List.length_eq_zero.mp (Nat.le_zero.mp hl)
    subst this
    rw [capFeedback]
    simp
  | succ n ih =>
    intro l hl
    by_cases h : 4 < l.length
    · rw [capFeedback, dif_pos h, ih l.dropLast (by simp [List.length_dropLast]; omega)]
      rw [List.dropLast_eq_take, List.take_take]
      congr 1
      omega
    · rw [capFeedback, dif_neg h]
      rw [List.take_of_length_le (by omega)]

theorem capFeedback_eq_take (l : List String) : capFeedback l = l.take 4 :=
  capFeedback_eq_take_aux l.length l le_rfl

/-- C7 (confirmed): both implementations return
`feedback = capFeedback(rules)`, where `rules` is the list produced by the
five threshold rules in their fixed source order (WER too high, excessive
silence, speaking rate off target, grammar coverage low, missing
keywords); the cap keeps exactly the first 4 entries (`List.take 4`), so
the list has at most 4 entries, the earliest-generated entries survive and
their relative order is preserved. -/
theorem C7_feedback_cap (env : JSEnv) (inp : ScoreInput) :
    (scoreAttempt1 env inp).feedback =
      (rawFeedback env.exp inp.transcript (refTokens1 env inp) (hypTokens1 env inp)
        (refFiltered1 env inp) (hypFiltered1 env inp) inp.audio).take 4 ∧
    (scoreAttempt1 env inp).feedback.length ≤ 4 ∧
    (scoreAttempt2 env inp).feedback =
      (rawFeedback env.exp inp.transcript (refTokens2 env inp) (hypTokens2 env inp)
        (refFiltered2 env inp) (hypFiltered2 env inp) inp.audio).take 4 ∧
    (scoreAttempt2 env inp).feedback.length ≤ 4 := by
  have e1 : (scoreAttempt1 env inp).feedback =
      capFeedback (rawFeedback env.exp inp.transcript (refTokens1 env inp)
        (hypTokens1 env inp) (refFiltered1 env inp) (hypFiltered1 env inp)
        inp.audio) := rfl
  have e2 : (scoreAttempt2 env inp).feedback =
      capFeedback (rawFeedback env.exp inp.transcript (refTokens2 env inp)
        (hypTokens2 env inp) (refFiltered2 env inp) (hypFiltered2 env inp)
        inp.audio) := rfl
  rw [e1, e2, capFeedback_eq_take, capFeedback_eq_take]
  refine ⟨rfl, ?_, rfl, ?_⟩
  · rw [List.length_take]
    omega
  · rw [List.length_take]
    omega

theorem numericCore_grammar_freetalk (E : ℚ → ℚ) (u : Bool) (t loc : String)
    (refT hypT refF hypF : List String) (a : Audio) (h : refT.length < 3) :
    hasRef refT = false ∧
      (numericCore E u t loc refT hypT refF hypF a).grammar = 100 := by
  have hr : hasRef refT = false := by
    unfold hasRef
    simp
    omega
  refine ⟨hr, ?_⟩
  have hg : grammarOf refT refF hypF = 1 := by
    unfold grammarOf
    rw [hr]
    simp
  show scaleScore u (grammarOf refT refF hypF * 100) = 100
  rw [hg, one_mul]
  have hround : round (100 : ℚ) = 100 := by
    rw [round_eq]
    norm_num
  cases u with
  | true =>
    unfold scaleScore clamp100
    rw [if_pos rfl, hround]
    norm_num
  | false =>
    unfold scaleScore
    rw [if_neg (by simp), hround]

/-- C5 (confirmed): whenever the reference text tokenizes (before
stop-word filtering) to fewer than 3 tokens, `hasTarget` (the spec's
`hasReference`) is false and the returned grammar sub-score is 100, in
both implementations, regardless of the transcript and of the audio
statistics. -/
theorem C5_freetalk_grammar (env : JSEnv) (inp : ScoreInput)
    (h1 : (refTokens1 env inp).length < 3) (h2 : (refTokens2 env inp).length < 3) :
    hasRef (refTokens1 env inp) = false ∧ (scoreAttempt1 env inp).grammar = 100 ∧
      hasRef (refTokens2 env inp) = false ∧ (scoreAttempt2 env inp).grammar = 100 := by
  have g1 := numericCore_grammar_freetalk env.exp true inp.transcript (localeOf inp)
    (refTokens1 env inp) (hypTokens1 env inp) (refFiltered1 env inp)
    (hypFiltered1 env inp) inp.audio h1
  have g2 := numericCore_grammar_freetalk env.exp false inp.transcript (localeOf inp)
    (refTokens2 env inp) (hypTokens2 env inp) (refFiltered2 env inp)
    (hypFiltered2 env inp) inp.audio h2
  exact ⟨g1.1, g1.2, g2.1, g2.2⟩

/-- Witness for C5: the empty input under the concrete platform — the
reference tokenizes to 0 tokens and grammar is 100 in both
implementations. -/
theorem C5_freetalk_grammar_witness :
    hasRef (refTokens1 icuEnv {}) = false ∧ (scoreAttempt1 icuEnv {}).grammar = 100 ∧
      hasRef (refTokens2 icuEnv {}) = false ∧ (scoreAttempt2 icuEnv {}).grammar = 100 :=
  C5_freetalk_grammar icuEnv {} (by decide) (by decide)

theorem speedOf_mem (E : ℚ → ℚ) (w : ℚ) : 0 ≤ speedOf E w ∧ speedOf E w ≤ 1 :=
  ⟨clamp01q_nonneg _, clamp01q_le_one _⟩

theorem numericCore_congr_audio (E : ℚ → ℚ) (u : Bool) (t loc : String)
    (refT hypT refF hypF : List String) (a b : Audio)
    (hw : wpmOf t hypT a = wpmOf t hypT b)
    (hs : silenceOf a = silenceOf b)
    (hps : pitchStdOf a = pitchStdOf b)
    (hpm : pitchMeanOf a = pitchMeanOf b) :
    numericCore E u t loc refT hypT refF hypF a =
      numericCore E u t loc refT hypT refF hypF b := by
  have hflu : fluencyOf E t hypT a = fluencyOf E t hypT b := by
    unfold fluencyOf
    rw [hw, hs]
  have hpro : prosodyOf a = prosodyOf b := by
    unfold prosodyOf
    rw [hps, hpm]
  have htot : total01Of E t refT hypT refF hypF a =
      total01Of E t refT hypT refF hypF b := by
    unfold total01Of
    rw [hflu, hpro]
  have hfb : rawFeedback E t refT hypT refF hypF a =
      rawFeedback E t refT hypT refF hypF b := by
    unfold rawFeedback
    rw [hw, hs]
  unfold numericCore
  rw [htot, hflu, hpro, hfb, hw, hs, hps, hpm]

theorem wpmOf_wpm_nan_undef (t : String) (hyp : List String) (a : Audio) :
    wpmOf t hyp { a with wpm := .nan } = wpmOf t hyp { a with wpm := .undef } := by
  simp [wpmOf]

theorem wpmOf_ms_nan_undef (t : String) (hyp : List String) (a : Audio) :
    wpmOf t hyp { a with ms := .nan } = wpmOf t hyp { a with ms := .undef } := by
  obtain ⟨w, m, sr, ps, pm⟩ := a
  cases w <;> simp [wpmOf]

theorem pitchStdOf_nan_undef (a : Audio) :
    pitchStdOf { a with pitchStd := .nan } = pitchStdOf { a with pitchStd := .undef } := by
  simp [pitchStdOf]

theorem pitchMeanOf_nan_undef (a : Audio) :
    pitchMeanOf { a with pitchMean := .nan } = pitchMeanOf { a with pitchMean := .undef } := by
  simp [pitchMeanOf]

theorem silenceOf_nan (a : Audio) : silenceOf { a with silenceRatio := .nan } = 0 := by
  simp [silenceOf, JNum.coalesce, clamp01J]

theorem silenceOf_undef (a : Audio) :
    silenceOf { a with silenceRatio := .undef } = 15/100 := by
  simp only [silenceOf, JNum.coalesce, clamp01J]
  exact clamp01q_eq_self _ (by norm_num) (by norm_num)

theorem round_bump (x : ℚ) : round x + 5 ≤ round (x + 21/4) := by
  rw [round_eq, round_eq]
  have h1 : x + 21/4 + 1/2 = (x + 3/4) + (5 : ℤ) := by
    push_cast
    ring
  rw [h1, Int.floor_add_int]
  have h2 : (⌊x + 1/2⌋ : ℤ) ≤ ⌊x + 3/4⌋ := Int.floor_le_floor (by linarith)
  omega

theorem fluency_silence_gap (E : ℚ → ℚ) (t : String) (hypT : List String)
    (a : Audio) (hn : silenceOf a = 0) (b : Audio) (hu : silenceOf b = 15/100)
    (hw : wpmOf t hypT a = wpmOf t hypT b) :
    scaleScore true (fluencyOf E t hypT b * 100) + 5 ≤
      scaleScore true (fluencyOf E t hypT a * 100) := by
  have hs := speedOf_mem E (wpmOf t hypT b)
  have hfa : fluencyOf E t hypT a =
      65/100 * speedOf E (wpmOf t hypT b) + 35/100 * (1 - 0) := by
    unfold fluencyOf
    rw [hw, hn]
    exact clamp01q_eq_self _ (by linarith [hs.1]) (by linarith [hs.2])
  have hfb : fluencyOf E t hypT b =
      65/100 * speedOf E (wpmOf t hypT b) + 35/100 * (1 - 15/100) := by
    unfold fluencyOf
    rw [hu]
    exact clamp01q_eq_self _ (by linarith [hs.1]) (by linarith [hs.2])
  have hb0 : 0 ≤ fluencyOf E t hypT b * 100 := by rw [hfb]; linarith [hs.1]
  have hb1 : fluencyOf E t hypT b * 100 ≤ 100 := by rw [hfb]; linarith [hs.2]
  have ha0 : 0 ≤ fluencyOf E t hypT a * 100 := by rw [hfa]; linarith [hs.1]
  have ha1 : fluencyOf E t hypT a * 100 ≤ 100 := by rw [hfa]; linarith [hs.2]
  rw [scaleScore_clamp_eq_round _ hb0 hb1, scaleScore_clamp_eq_round _ ha0 ha1]
  show round (fluencyOf E t hypT b * 100) + 5 ≤ round (fluencyOf E t hypT a * 100)
  have harg : fluencyOf E t hypT a * 100 = fluencyOf E t hypT b * 100 + 21/4 := by
    rw [hfa, hfb]
    ring
  rw [harg]
  exact round_bump _

/-- C3 (amended): a non-finite `wpm`, `ms`, `pitchStd` or `pitchMean` is
treated exactly like an absent one (the calibrated defaults 120, 30, 150
apply), in both implementations, and the call never fails; but a
non-finite `silenceRatio` is NOT treated as absent: `??` keeps the `NaN`
and `clamp01` maps it to 0, while an absent `silenceRatio` becomes the
0.15 default — so the reported silence (and with it the fluency score,
which drops by at least 5 points at 0.15 extra silence) differs between
the two cases. -/
theorem C3_audio_defaults (env : JSEnv) (inp : ScoreInput) :
    (scoreAttempt1 env { inp with audio := { inp.audio with wpm := .nan } } =
      scoreAttempt1 env { inp with audio := { inp.audio with wpm := .undef } }) ∧
    (scoreAttempt1 env { inp with audio := { inp.audio with ms := .nan } } =
      scoreAttempt1 env { inp with audio := { inp.audio with ms := .undef } }) ∧
    (scoreAttempt1 env { inp with audio := { inp.audio with pitchStd := .nan } } =
      scoreAttempt1 env { inp with audio := { inp.audio with pitchStd := .undef } }) ∧
    (scoreAttempt1 env { inp with audio := { inp.audio with pitchMean := .nan } } =
      scoreAttempt1 env { inp with audio := { inp.audio with pitchMean := .undef } }) ∧
    (scoreAttempt2 env { inp with audio := { inp.audio with wpm := .nan } } =
      scoreAttempt2 env { inp with audio := { inp.audio with wpm := .undef } }) ∧
    (scoreAttempt2 env { inp with audio := { inp.audio with ms := .nan } } =
      scoreAttempt2 env { inp with audio := { inp.audio with ms := .undef } }) ∧
    (scoreAttempt2 env { inp with audio := { inp.audio with pitchStd := .nan } } =
      scoreAttempt2 env { inp with audio := { inp.audio with pitchStd := .undef } }) ∧
    (scoreAttempt2 env { inp with audio := { inp.audio with pitchMean := .nan } } =
      scoreAttempt2 env { inp with audio := { inp.audio with pitchMean := .undef } }) ∧
    (scoreAttempt1 env
        { inp with audio := { inp.audio with silenceRatio := .nan } }).meta.silence = 0 ∧
    (scoreAttempt1 env
        { inp with audio := { inp.audio with silenceRatio := .undef } }).meta.silence
      = 15/100 ∧
    (scoreAttempt1 env
          { inp with audio := { inp.audio with silenceRatio := .nan } }).fluency ≠
      (scoreAttempt1 env
          { inp with audio := { inp.audio with silenceRatio := .undef } }).fluency := by
  refine ⟨?_, ?_, ?_, ?_, ?_, ?_, ?_, ?_, ?_, ?_, ?_⟩
  · exact numericCore_congr_audio env.exp true inp.transcript (localeOf inp)
      (refTokens1 env inp) (hypTokens1 env inp) (refFiltered1 env inp)
      (hypFiltered1 env inp) _ _ (wpmOf_wpm_nan_undef _ _ _) rfl rfl rfl
  · exact numericCore_congr_audio env.exp true inp.transcript (localeOf inp)
      (refTokens1 env inp) (hypTokens1 env inp) (refFiltered1 env inp)
      (hypFiltered1 env inp) _ _ (wpmOf_ms_nan_undef _ _ _) rfl rfl rfl
  · exact numericCore_congr_audio env.exp true inp.transcript (localeOf inp)
      (refTokens1 env inp) (hypTokens1 env inp) (refFiltered1 env inp)
      (hypFiltered1 env inp) _ _ rfl rfl (pitchStdOf_nan_undef _) rfl
  · exact numericCore_congr_audio env.exp true inp.transcript (localeOf inp)
      (refTokens1 env inp) (hypTokens1 env inp) (refFiltered1 env inp)
      (hypFiltered1 env inp) _ _ rfl rfl rfl (pitchMeanOf_nan_undef _)
  · exact numericCore_congr_audio env.exp false inp.transcript (localeOf inp)
      (refTokens2 env inp) (hypTokens2 env inp) (refFiltered2 env inp)
      (hypFiltered2 env inp) _ _ (wpmOf_wpm_nan_undef _ _ _) rfl rfl rfl
  · exact numericCore_congr_audio env.exp false inp.transcript (localeOf inp)
      (refTokens2 env inp) (hypTokens2 env inp) (refFiltered2 env inp)
      (hypFiltered2 env inp) _ _ (wpmOf_ms_nan_undef _ _ _) rfl rfl rfl
  · exact numericCore_congr_audio env.exp false inp.transcript (localeOf inp)
      (refTokens2 env inp) (hypTokens2 env inp) (refFiltered2 env inp)
      (hypFiltered2 env inp) _ _ rfl rfl (pitchStdOf_nan_undef _) rfl
  · exact numericCore_congr_audio env.exp false inp.transcript (localeOf inp)
      (refTokens2 env inp) (hypTokens2 env inp) (refFiltered2 env inp)
      (hypFiltered2 env inp) _ _ rfl rfl rfl (pitchMeanOf_nan_undef _)
  · exact silenceOf_nan inp.audio
  · exact silenceOf_undef inp.audio
  · intro hcontra
    have := fluency_silence_gap env.exp inp.transcript (hypTokens1 env inp)
      { inp.audio with silenceRatio := .nan } (silenceOf_nan inp.audio)
      { inp.audio with silenceRatio := .undef } (silenceOf_undef inp.audio) rfl
    have hN : (scoreAttempt1 env
        { inp with audio := { inp.audio with silenceRatio := .nan } }).fluency =
        scaleScore true (fluencyOf env.exp inp.transcript (hypTokens1 env inp)
          { inp.audio with silenceRatio := .nan } * 100) := rfl
    have hU : (scoreAttempt1 env
        { inp with audio := { inp.audio with silenceRatio := .undef } }).fluency =
        scaleScore true (fluencyOf env.exp inp.transcript (hypTokens1 env inp)
          { inp.audio with silenceRatio := .undef } * 100) := rfl
    rw [hN, hU] at hcontra
    omega

theorem wpmOf_all_default (t : String) (hyp : List String) (x : JNum) :
    wpmOf t hyp
      { wpm := .undef, ms := .undef, silenceRatio := x, pitchStd := .undef,
        pitchMean := .undef } = 120 := by
  simp [wpmOf]

theorem speedOf_icu (w : ℚ) : speedOf icuEnv.exp w = 1/2 := by
  unfold speedOf speedScoreOf
  have he : icuEnv.exp (-(w - 135) / 25) = 1 := rfl
  rw [he]
  have h1 : (1 / (1 + (1:ℚ)) - 75/100) = -(1/4) := by norm_num
  rw [h1, abs_neg, abs_of_nonneg (by norm_num : (0:ℚ) ≤ 1/4)]
  have h2 : (1 - 2 * (1/4 : ℚ)) = 1/2 := by norm_num
  rw [h2]
  exact clamp01q_eq_self _ (by norm_num) (by norm_num)

/-- C3 counterexample: with `silenceRatio = NaN` the engine reports
silence 0 and (under the concrete platform stand-in) fluency 68, while
with the field absent it reports the calibrated default 0.15 and
fluency 62 — a non-finite `silenceRatio` is NOT scored like an absent
one. -/
theorem C3_audio_cex :
    (scoreAttempt1 icuEnv
        { audio := { silenceRatio := .nan } }).meta.silence = 0 ∧
    (scoreAttempt1 icuEnv {}).meta.silence = 15/100 ∧
    (scoreAttempt1 icuEnv
        { audio := { silenceRatio := .nan } }).fluency = 68 ∧
    (scoreAttempt1 icuEnv {}).fluency = 62 := by
  have hsilN : silenceOf
      ({ silenceRatio := .nan } : Audio) = 0 := by
    simp [silenceOf, JNum.coalesce, clamp01J]
  have hsilU : silenceOf ({} : Audio) = 15/100 := by
    simp only [silenceOf, JNum.coalesce, clamp01J]
    exact clamp01q_eq_self _ (by norm_num) (by norm_num)
  refine ⟨hsilN, hsilU, ?_, ?_⟩
  · show scaleScore true (fluencyOf icuEnv.exp ""
      (hypTokens1 icuEnv { audio := { silenceRatio := .nan } })
      ({ silenceRatio := .nan } : Audio) * 100) = 68
    unfold fluencyOf
    rw [wpmOf_all_default, speedOf_icu, hsilN]
    have harg : (65/100 * (1/2 : ℚ) + 35/100 * (1 - 0)) = 27/40 := by norm_num
    rw [harg, clamp01q_eq_self _ (by norm_num) (by norm_num)]
    show clamp100 (27/40 * 100) = 68
    unfold clamp100
    have h1 : (27/40 * 100 : ℚ) = 135/2 := by norm_num
    have h2 : round (135/2 : ℚ) = 68 := by
      rw [round_eq]
      norm_num
    rw [h1, h2]
    norm_num
  · show scaleScore true (fluencyOf icuEnv.exp ""
      (hypTokens1 icuEnv {}) ({} : Audio) * 100) = 62
    unfold fluencyOf
    rw [wpmOf_all_default, speedOf_icu, hsilU]
    have harg : (65/100 * (1/2 : ℚ) + 35/100 * (1 - 15/100)) = 249/400 := by norm_num
    rw [harg, clamp01q_eq_self _ (by norm_num) (by norm_num)]
    show clamp100 (249/400 * 100) = 62
    unfold clamp100
    have h1 : (249/400 * 100 : ℚ) = 249/4 := by norm_num
    have h2 : round (249/4 : ℚ) = 62 := by
      rw [round_eq]
      norm_num
    rw [h1, h2]
    norm_num

theorem scaleScore_unit_eq (x : ℚ) (h0 : 0 ≤ x) (h1 : x ≤ 1) :
    scaleScore true (x * 100) = scaleScore false (x * 100) :=
  scaleScore_clamp_eq_round _ (by linarith) (by linarith)

theorem numericCore_clamp_round_eq (E : ℚ → ℚ) (t loc : String)
    (refT hypT refF hypF : List String) (a : Audio) :
    numericCore E true t loc refT hypT refF hypF a =
      numericCore E false t loc refT hypT refF hypF a := by
  unfold numericCore
  ext : 1
  · exact scaleScore_unit_eq _ (clamp01q_nonneg _) (clamp01q_le_one _)
  · exact scaleScore_unit_eq _ (clamp01q_nonneg _) (clamp01q_le_one _)
  · exact scaleScore_unit_eq _ (clamp01q_nonneg _) (clamp01q_le_one _)
  · exact scaleScore_unit_eq _ (clamp01q_nonneg _) (clamp01q_le_one _)
  · exact scaleScore_unit_eq _ (grammarOf_mem refT refF hypF).1
      (grammarOf_mem refT refF hypF).2
  · rfl
  · rfl

/-- C10 (amended): the numeric phases of the two implementations agree
(the only textual difference, `clamp100` versus `Math.round`, is applied
to values already clamped into `[0,100]`), so on any input where the two
tokenization/stop-word stages produce the same token lists the results
are identical; full extensional equality fails, because the stages differ
— the first implementation never lower-cases and the stop-word tables and
`langKey` casing differ (see the counterexample). -/
theorem C10_refinement_amended (env : JSEnv) (inp : ScoreInput)
    (ht : refTokens1 env inp = refTokens2 env inp)
    (hh : hypTokens1 env inp = hypTokens2 env inp)
    (hrf : refFiltered1 env inp = refFiltered2 env inp)
    (hhf : hypFiltered1 env inp = hypFiltered2 env inp) :
    scoreAttempt1 env inp = scoreAttempt2 env inp := by
  unfold scoreAttempt1 scoreAttempt2
  rw [ht, hh, hrf, hhf]
  exact numericCore_clamp_round_eq env.exp inp.transcript (localeOf inp)
    (refTokens2 env inp) (hypTokens2 env inp) (refFiltered2 env inp)
    (hypFiltered2 env inp) inp.audio

/-- Witness for C10: on the empty input both stages tokenize to nothing
and the two implementations agree exactly. -/
theorem C10_refinement_witness : scoreAttempt1 icuEnv {} = scoreAttempt2 icuEnv {} :=
  C10_refinement_amended icuEnv {} (by decide) (by decide) (by decide) (by decide)

theorem clamp01q_zero : clamp01q 0 = 0 := clamp01q_eq_self 0 le_rfl (by norm_num)

theorem pron_of_wer_one (refT refF hypF : List String) (hres : hasRef refT = true)
    (hw : werOf refT refF hypF = 1) : PronOf refT refF hypF = 2/25 := by
  have hpw : pronWordOf refT refF hypF = 0 := by
    unfold pronWordOf
    rw [if_pos hres, hw]
    rw [show (1 - 1 : ℚ) = 0 from by norm_num]
    exact clamp01q_zero
  have hpp : pronPhonOf refT refF hypF = 2/10 := by
    unfold pronPhonOf
    rw [if_pos hres, hpw]
    rw [show (8/10 * 0 + 2/10 : ℚ) = 2/10 from by norm_num]
    exact clamp01q_eq_self _ (by norm_num) (by norm_num)
  unfold PronOf
  rw [hpw, hpp]
  rw [show (6/10 * 0 + 4/10 * (2/10) : ℚ) = 2/25 from by norm_num]
  exact clamp01q_eq_self _ (by norm_num) (by norm_num)

theorem pron_of_wer_zero (refT refF hypF : List String) (hres : hasRef refT = true)
    (hw : werOf refT refF hypF = 0) : PronOf refT refF hypF = 1 := by
  have hpw : pronWordOf refT refF hypF = 1 := by
    unfold pronWordOf
    rw [if_pos hres, hw]
    rw [show (1 - 0 : ℚ) = 1 from by norm_num]
    exact clamp01q_eq_self _ (by norm_num) (by norm_num)
  have hpp : pronPhonOf refT refF hypF = 1 := by
    unfold pronPhonOf
    rw [if_pos hres, hpw]
    rw [show (8/10 * 1 + 2/10 : ℚ) = 1 from by norm_num]
    exact clamp01q_eq_self _ (by norm_num) (by norm_num)
  unfold PronOf
  rw [hpw, hpp]
  rw [show (6/10 * 1 + 4/10 * 1 : ℚ) = 1 from by norm_num]
  exact clamp01q_eq_self _ (by norm_num) (by norm_num)

/-- The input on which the two implementations differ: the transcript is
the reference in upper case. -/
def inpCase : ScoreInput :=
  { transcript := "HELLO WORLD FRIEND", targetText := "hello world friend" }

/-- C10 counterexample: on a transcript differing from the reference only
in letter case, the first implementation (which never lower-cases) scores
pronunciation 8, the second (which lower-cases in `norm`) scores 100 — the
two `scoreAttempt` implementations are not extensionally equal. -/
theorem C10_refinement_cex :
    (scoreAttempt1 icuEnv inpCase).pronunciation = 8 ∧
    (scoreAttempt2 icuEnv inpCase).pronunciation = 100 ∧
    scoreAttempt1 icuEnv inpCase ≠ scoreAttempt2 icuEnv inpCase := by
  have hrt1 : refTokens1 icuEnv inpCase = ["hello", "world", "friend"] := by decide
  have hrf1 : refFiltered1 icuEnv inpCase = ["hello", "world", "friend"] := by decide
  have hhf1 : hypFiltered1 icuEnv inpCase = ["HELLO", "WORLD", "FRIEND"] := by decide
  have hrt2 : refTokens2 icuEnv inpCase = ["hello", "world", "friend"] := by decide
  have hrf2 : refFiltered2 icuEnv inpCase = ["hello", "world", "friend"] := by decide
  have hhf2 : hypFiltered2 icuEnv inpCase = ["hello", "world", "friend"] := by decide
  have hW1 : werOf ["hello", "world", "friend"] ["hello", "world", "friend"]
      ["HELLO", "WORLD", "FRIEND"] = 1 := by
    unfold werOf
    rw [if_pos (by decide : hasRef ["hello", "world", "friend"] = true)]
    have hd : levDp ["hello", "world", "friend"] ["HELLO", "WORLD", "FRIEND"] 3 3 = 3 := by
      decide
    unfold wordErrorRate
    norm_num [hd]
  have hW2 : werOf ["hello", "world", "friend"] ["hello", "world", "friend"]
      ["hello", "world", "friend"] = 0 := by
    unfold werOf
    rw [if_pos (by decide : hasRef ["hello", "world", "friend"] = true)]
    exact wordErrorRate_self _
  have p1 : (scoreAttempt1 icuEnv inpCase).pronunciation = 8 := by
    show scaleScore true (PronOf (refTokens1 icuEnv inpCase)
      (refFiltered1 icuEnv inpCase) (hypFiltered1 icuEnv inpCase) * 100) = 8
    rw [hrt1, hrf1, hhf1, pron_of_wer_one _ _ _ (by decide) hW1]
    unfold scaleScore clamp100
    rw [if_pos rfl]
    rw [show (2/25 * 100 : ℚ) = 8 from by norm_num]
    have h8 : round (8 : ℚ) = 8 := by
      rw [round_eq]
      norm_num
    rw [h8]
    norm_num
  have p2 : (scoreAttempt2 icuEnv inpCase).pronunciation = 100 := by
    show scaleScore false (PronOf (refTokens2 icuEnv inpCase)
      (refFiltered2 icuEnv inpCase) (hypFiltered2 icuEnv inpCase) * 100) = 100
    rw [hrt2, hrf2, hhf2, pron_of_wer_zero _ _ _ (by decide) hW2]
    unfold scaleScore
    rw [if_neg (by simp)]
    rw [show (1 * 100 : ℚ) = 100 from by norm_num]
    rw [round_eq]
    norm_num
  refine ⟨p1, p2, ?_⟩
  intro hcontra
  rw [show (scoreAttempt1 icuEnv inpCase).pronunciation =
    (scoreAttempt2 icuEnv inpCase).pronunciation from by rw [hcontra]] at p1
  rw [p2] at p1
  exact absurd p1 (by norm_num)

/-- C9 (amended): the second implementation's tokenizer factors through
`norm` — NFKC normalization, locale-aware lower-casing and trimming — so
texts with equal normalized forms (in particular texts differing only in
letter case, for the scripts where the platform case-folds them equally)
yield identical token sequences; the first implementation's `norm` omits
the lower-casing, so its tokenization is case-sensitive (see the
counterexample). -/
theorem C9_tokenize_amended (env : JSEnv) (loc a b : String)
    (h : norm2 env loc a = norm2 env loc b) :
    tokenize2 env a loc = tokenize2 env b loc := by
  unfold tokenize2
  rw [h]

/-- Witness for C9: under the concrete platform, `"A"` and `"a"` normalize
identically, so the second tokenizer yields the same tokens. -/
theorem C9_tokenize_witness :
    tokenize2 icuEnv "A" "en-US" = tokenize2 icuEnv "a" "en-US" :=
  C9_tokenize_amended icuEnv "en-US" "A" "a" (by decide)

/-- C9 counterexample: the first implementation's tokenizer is
case-sensitive — `"A"` and `"a"` produce different token sequences
(`["A"]` versus `["a"]`), so tokenization is not lower-cased there. -/
theorem C9_tokenize_cex :
    tokenize1 icuEnv "A" "en-US" = ["A"] ∧
    tokenize1 icuEnv "a" "en-US" = ["a"] ∧
    tokenize1 icuEnv "A" "en-US" ≠ tokenize1 icuEnv "a" "en-US" := by
  refine ⟨by decide, by decide, by decide⟩

theorem scaleScore_eval (u : Bool) (q : ℚ) (z : ℤ) (hz : round q = z)
    (h0 : 0 ≤ z) (h1 : z ≤ 100) : scaleScore u q = z := by
  cases u with
  | false =>
    unfold scaleScore
    rw [if_neg (by simp), hz]
  | true =>
    unfold scaleScore clamp100
    rw [if_pos rfl, hz]
    omega

theorem PronOf_empty : PronOf [] [] [] = 82/100 := by
  have hpw : pronWordOf [] [] [] = 8/10 := by
    unfold pronWordOf
    rw [if_neg (by decide)]
  have hpp : pronPhonOf [] [] [] = 85/100 := by
    unfold pronPhonOf
    rw [if_neg (by decide)]
  unfold PronOf
  rw [hpw, hpp]
  rw [show (6/10 * (8/10) + 4/10 * (85/100) : ℚ) = 82/100 from by norm_num]
  exact clamp01q_eq_self _ (by norm_num) (by norm_num)

theorem prosodyOf_default : prosodyOf {} = 7/8 := by
  unfold prosodyOf pitchStdOf pitchMeanOf
  rw [show ((30 : ℚ) / 150 - 6/100) / (16/100) = 7/8 from by norm_num]
  exact clamp01q_eq_self _ (by norm_num) (by norm_num)

theorem silenceOf_default : silenceOf {} = 15/100 := by
  simp only [silenceOf, JNum.coalesce, clamp01J]
  exact clamp01q_eq_self _ (by norm_num) (by norm_num)

/-- C6 (amended): on an empty transcript and empty reference the engine
returns the free-talk sub-score defaults — pronunciation 82 (from the 0.8
and 0.85 neutral defaults), grammar 100, prosody 88 (from the pitch
defaults 30/150) — with `hasTarget` false and the calibrated audio
defaults reported (wpm 120, silence 0.15, pitch 30/150, no missing
tokens); the diagnostics report the WER as `null` (not evaluated), not as
the claim's 0. -/
theorem C6_empty_empty (env : JSEnv)
    (h1 : env.nfkc "" = "") (h2 : env.segment "en-US" "" = some [])
    (h3 : env.lowerLoc "en-US" "" = "") (h4 : env.trimStr "" = "") :
    hasRef (refTokens1 env {}) = false ∧
    (scoreAttempt1 env {}).meta.wer = none ∧
    (scoreAttempt1 env {}).pronunciation = 82 ∧
    (scoreAttempt1 env {}).grammar = 100 ∧
    (scoreAttempt1 env {}).prosody = 88 ∧
    (scoreAttempt1 env {}).meta.wpm = 120 ∧
    (scoreAttempt1 env {}).meta.silence = 15/100 ∧
    (scoreAttempt1 env {}).meta.pitchStd = 30 ∧
    (scoreAttempt1 env {}).meta.pitchMean = 150 ∧
    (scoreAttempt1 env {}).meta.missing = [] ∧
    hasRef (refTokens2 env {}) = false ∧
    (scoreAttempt2 env {}).meta.wer = none ∧
    (scoreAttempt2 env {}).pronunciation = 82 ∧
    (scoreAttempt2 env {}).grammar = 100 ∧
    (scoreAttempt2 env {}).prosody = 88 := by
  have hloc : localeOf ({} : ScoreInput) = "en-US" := by decide
  have hrt1 : refTokens1 env {} = [] := by
    show tokenize1 env "" (localeOf {}) = []
    rw [hloc]
    unfold tokenize1
    rw [h1, h2]
    rfl
  have hht1 : hypTokens1 env {} = [] := by
    show tokenize1 env "" (localeOf {}) = []
    rw [hloc]
    unfold tokenize1
    rw [h1, h2]
    rfl
  have hrf1 : refFiltered1 env {} = [] := by
    unfold refFiltered1
    rw [hrt1]
    rfl
  have hhf1 : hypFiltered1 env {} = [] := by
    unfold hypFiltered1
    rw [hht1]
    rfl
  have hrt2 : refTokens2 env {} = [] := by
    show tokenize2 env "" (localeOf {}) = []
    rw [hloc]
    unfold tokenize2 norm2
    rw [h1, h3, h4, h2]
    rfl
  have hht2 : hypTokens2 env {} = [] := by
    show tokenize2 env "" (localeOf {}) = []
    rw [hloc]
    unfold tokenize2 norm2
    rw [h1, h3, h4, h2]
    rfl
  have hrf2 : refFiltered2 env {} = [] := by
    unfold refFiltered2
    rw [hrt2]
    rfl
  have hhf2 : hypFiltered2 env {} = [] := by
    unfold hypFiltered2
    rw [hht2]
    rfl
  have h82 : round (82/100 * 100 : ℚ) = 82 := by
    rw [round_eq]
    norm_num
  have h88 : round (7/8 * 100 : ℚ) = 88 := by
    rw [round_eq]
    norm_num
  refine ⟨?_, ?_, ?_, ?_, ?_, ?_, ?_, ?_, ?_, ?_, ?_, ?_, ?_, ?_, ?_⟩
  · rw [hrt1]
    decide
  · show (if hasRef (refTokens1 env {}) then
        some (toFixed3 (werOf (refTokens1 env {}) (refFiltered1 env {})
          (hypFiltered1 env {}))) else none) = none
    rw [hrt1, hrf1, hhf1]
    rw [if_neg (by decide)]
  · show scaleScore true (PronOf (refTokens1 env {}) (refFiltered1 env {})
      (hypFiltered1 env {}) * 100) = 82
    rw [hrt1, hrf1, hhf1, PronOf_empty]
    exact scaleScore_eval true _ 82 h82 (by norm_num) (by norm_num)
  · exact (numericCore_grammar_freetalk env.exp true ({} : ScoreInput).transcript
      (localeOf {}) (refTokens1 env {}) (hypTokens1 env {}) (refFiltered1 env {})
      (hypFiltered1 env {}) ({} : ScoreInput).audio
      (by rw [hrt1]; decide)).2
  · show scaleScore true (prosodyOf ({} : Audio) * 100) = 88
    rw [prosodyOf_default]
    exact scaleScore_eval true _ 88 h88 (by norm_num) (by norm_num)
  · show wpmOf "" (hypTokens1 env {}) ({} : Audio) = 120
    simp [wpmOf]
  · exact silenceOf_default
  · show pitchStdOf ({} : Audio) = 30
    simp [pitchStdOf]
  · show pitchMeanOf ({} : Audio) = 150
    simp [pitchMeanOf]
  · show (if hasRef (refTokens1 env {}) then
        (missingOf (refTokens1 env {}) (refFiltered1 env {})
          (hypFiltered1 env {})).take 5 else []) = []
    rw [hrt1]
    rw [if_neg (by decide)]
  · rw [hrt2]
    decide
  · show (if hasRef (refTokens2 env {}) then
        some (toFixed3 (werOf (refTokens2 env {}) (refFiltered2 env {})
          (hypFiltered2 env {}))) else none) = none
    rw [hrt2, hrf2, hhf2]
    rw [if_neg (by decide)]
  · show scaleScore false (PronOf (refTokens2 env {}) (refFiltered2 env {})
      (hypFiltered2 env {}) * 100) = 82
    rw [hrt2, hrf2, hhf2, PronOf_empty]
    exact scaleScore_eval false _ 82 h82 (by norm_num) (by norm_num)
  · exact (numericCore_grammar_freetalk env.exp false ({} : ScoreInput).transcript
      (localeOf {}) (refTokens2 env {}) (hypTokens2 env {}) (refFiltered2 env {})
      (hypFiltered2 env {}) ({} : ScoreInput).audio
      (by rw [hrt2]; decide)).2
  · show scaleScore false (prosodyOf ({} : Audio) * 100) = 88
    rw [prosodyOf_default]
    exact scaleScore_eval false _ 88 h88 (by norm_num) (by norm_num)

/-- Witness for C6: the theorem applied at the concrete platform. -/
theorem C6_empty_empty_witness :
    (scoreAttempt1 icuEnv {}).pronunciation = 82 ∧
      (scoreAttempt1 icuEnv {}).meta.wer = none :=
  ⟨(C6_empty_empty icuEnv (by decide) (by decide) (by decide) (by decide)).2.2.1,
    (C6_empty_empty icuEnv (by decide) (by decide) (by decide) (by decide)).2.1⟩

/-- C6 counterexample: on the empty input the diagnostics carry
`wer = null` (`none`), not the WER 0 that the claim states. -/
theorem C6_empty_empty_cex :
    (scoreAttempt1 icuEnv {}).meta.wer = none ∧
      (scoreAttempt1 icuEnv {}).meta.wer ≠ some 0 := by
  have h : (scoreAttempt1 icuEnv {}).meta.wer = none := by
    show (if hasRef (refTokens1 icuEnv {}) then
        some (toFixed3 (werOf (refTokens1 icuEnv {}) (refFiltered1 icuEnv {})
          (hypFiltered1 icuEnv {}))) else none) = none
    rw [if_neg (by decide)]
  refine ⟨h, ?_⟩
  rw [h]
  simp

/-- Example scenario 2 of the spec: empty transcript against the reference
`"please order a coffee"`. -/
def inpCoffee : ScoreInput :=
  { transcript := "", targetText := "please order a coffee" }

theorem wer_coffee : wordErrorRate ["please", "order", "coffee"] [] = 1 := by
  have hd : levDp ["please", "order", "coffee"] [] 3 0 = 3 := rfl
  unfold wordErrorRate
  norm_num [hd]

theorem grammarOf_coffee :
    grammarOf ["please", "order", "a", "coffee"] ["please", "order", "coffee"] [] = 0 := by
  unfold grammarOf
  rw [if_pos (by decide : hasRef ["please", "order", "a", "coffee"] = true)]
  rw [show keyTokensOf ["please", "order", "coffee"] = ["please", "order", "coffee"]
    from by decide]
  rw [show missingOf ["please", "order", "a", "coffee"] ["please", "order", "coffee"] []
    = ["please", "order", "coffee"] from by decide]
  rw [if_pos (by decide : (["please", "order", "coffee"] : List String).length ≠ 0)]
  rw [show (1 - ((["please", "order", "coffee"] : List String).length : ℚ) /
    ((["please", "order", "coffee"] : List String).length : ℚ)) = 0 from by norm_num]
  exact clamp01q_zero

/-- C8 (amended): on `transcript = ""`, `referenceText = "please order a
coffee"` (hint `"auto"`, no audio statistics) the first implementation
gives `hasTarget = true`, reported WER 1, grammar 0, and a feedback entry
listing the three missing keywords with the stop word `"a"` dropped —
but pronunciation is 8, not the claim's ≈ 20: the floor blend enters the
final pronunciation only with weight 0.4
(`0.6·pronWord + 0.4·(0.8·pronWord + 0.2) = 0.08` at `pronWord = 0`). -/
theorem C8_coffee_scenario (env : JSEnv)
    (hn1 : env.nfkc "please order a coffee" = "please order a coffee")
    (hn2 : env.nfkc "" = "")
    (hs1 : env.segment "en-US" "please order a coffee" =
      some [("please", true), (" ", false), ("order", true), (" ", false),
        ("a", true), (" ", false), ("coffee", true)])
    (hs2 : env.segment "en-US" "" = some [])
    (ha1 : env.alnum (Char.ofNat 112) = true)
    (ha2 : env.alnum (Char.ofNat 111) = true)
    (ha3 : env.alnum (Char.ofNat 97) = true)
    (ha4 : env.alnum (Char.ofNat 99) = true)
    (hl0 : env.lower "en" = "en")
    (hl1 : env.lower "please" = "please")
    (hl2 : env.lower "order" = "order")
    (hl3 : env.lower "a" = "a")
    (hl4 : env.lower "coffee" = "coffee") :
    hasRef (refTokens1 env inpCoffee) = true ∧
    (scoreAttempt1 env inpCoffee).meta.wer = some 1 ∧
    (scoreAttempt1 env inpCoffee).pronunciation = 8 ∧
    (scoreAttempt1 env inpCoffee).grammar = 0 ∧
    fbMissingOf ["please", "order", "coffee"] ∈ (scoreAttempt1 env inpCoffee).feedback := by
  have hloc : localeOf inpCoffee = "en-US" := by decide
  have e1 : ("please").data.any env.alnum = true := by
    show (['p', 'l', 'e', 'a', 's', 'e']).any env.alnum = true
    simp only [List.any_cons]
    rw [show 'p' = Char.ofNat 112 from rfl, ha1]
    rfl
  have e2 : ("order").data.any env.alnum = true := by
    show (['o', 'r', 'd', 'e', 'r']).any env.alnum = true
    simp only [List.any_cons]
    rw [show 'o' = Char.ofNat 111 from rfl, ha2]
    rfl
  have e3 : ("a").data.any env.alnum = true := by
    show (['a']).any env.alnum = true
    simp only [List.any_cons]
    rw [show 'a' = Char.ofNat 97 from rfl, ha3]
    rfl
  have e4 : ("coffee").data.any env.alnum = true := by
    show (['c', 'o', 'f', 'f', 'e', 'e']).any env.alnum = true
    simp only [List.any_cons]
    rw [show 'c' = Char.ofNat 99 from rfl, ha4]
    rfl
  have hrt : refTokens1 env inpCoffee = ["please", "order", "a", "coffee"] := by
    show tokenize1 env "please order a coffee" (localeOf inpCoffee) = _
    rw [hloc]
    unfold tokenize1
    rw [hn1, hs1]
    unfold tokenizeSegs
    simp [e1, e2, e3, e4]
  have hht : hypTokens1 env inpCoffee = [] := by
    show tokenize1 env "" (localeOf inpCoffee) = []
    rw [hloc]
    unfold tokenize1
    rw [hn2, hs2]
    rfl
  have hk : langKey1 env inpCoffee = "en" := by
    unfold langKey1
    rw [hloc]
    rw [show ("en-US".take 2) = "en" from by decide]
    exact hl0
  have hrf : refFiltered1 env inpCoffee = ["please", "order", "coffee"] := by
    unfold refFiltered1
    rw [hrt, hk]
    simp only [List.filter_cons, List.filter_nil, hl1, hl2, hl3, hl4]
    rw [show (STOP1 "en").contains "please" = false from by decide,
      show (STOP1 "en").contains "order" = false from by decide,
      show (STOP1 "en").contains "a" = true from by decide,
      show (STOP1 "en").contains "coffee" = false from by decide]
    rfl
  have hhf : hypFiltered1 env inpCoffee = [] := by
    unfold hypFiltered1
    rw [hht]
    rfl
  have hW : werOf ["please", "order", "a", "coffee"] ["please", "order", "coffee"] [] = 1 := by
    unfold werOf
    rw [if_pos (by decide : hasRef ["please", "order", "a", "coffee"] = true)]
    exact wer_coffee
  refine ⟨?_, ?_, ?_, ?_, ?_⟩
  · rw [hrt]
    decide
  · show (if hasRef (refTokens1 env inpCoffee) then
        some (toFixed3 (werOf (refTokens1 env inpCoffee) (refFiltered1 env inpCoffee)
          (hypFiltered1 env inpCoffee))) else none) = some 1
    rw [hrt, hrf, hhf]
    rw [if_pos (by decide : hasRef ["please", "order", "a", "coffee"] = true), hW]
    have ht3 : toFixed3 1 = 1 := by
      unfold toFixed3
      rw [show ((1 : ℚ) * 1000) = 1000 from by norm_num]
      rw [show round (1000 : ℚ) = 1000 from by rw [round_eq]; norm_num]
      norm_num
    rw [ht3]
  · show scaleScore true (PronOf (refTokens1 env inpCoffee) (refFiltered1 env inpCoffee)
      (hypFiltered1 env inpCoffee) * 100) = 8
    rw [hrt, hrf, hhf, pron_of_wer_one _ _ _ (by decide) hW]
    have hz8 : round (2/25 * 100 : ℚ) = 8 := by
      rw [show (2/25 * 100 : ℚ) = 8 from by norm_num, round_eq]
      norm_num
    exact scaleScore_eval true _ 8 hz8 (by norm_num) (by norm_num)
  · show scaleScore true (grammarOf (refTokens1 env inpCoffee) (refFiltered1 env inpCoffee)
      (hypFiltered1 env inpCoffee) * 100) = 0
    rw [hrt, hrf, hhf, grammarOf_coffee]
    have hz0 : round ((0 : ℚ) * 100) = 0 := by
      rw [show ((0 : ℚ) * 100) = 0 from by norm_num, round_eq]
      norm_num
    exact scaleScore_eval true _ 0 hz0 (by norm_num) (by norm_num)
  · show fbMissingOf ["please", "order", "coffee"] ∈
      capFeedback (rawFeedback env.exp "" (refTokens1 env inpCoffee)
        (hypTokens1 env inpCoffee) (refFiltered1 env inpCoffee)
        (hypFiltered1 env inpCoffee) {})
    rw [hrt, hht, hrf, hhf]
    unfold rawFeedback
    rw [if_pos (⟨by decide, by rw [hW]; norm_num⟩ :
      hasRef ["please", "order", "a", "coffee"] = true ∧
        werOf ["please", "order", "a", "coffee"] ["please", "order", "coffee"] [] > 25/100)]
    rw [if_neg (show ¬ silenceOf {} > 35/100 from by rw [silenceOf_default]; norm_num)]
    have hMiss : missingOf ["please", "order", "a", "coffee"]
        ["please", "order", "coffee"] [] = ["please", "order", "coffee"] := by decide
    rw [if_pos (⟨by decide, by rw [grammarOf_coffee]; norm_num⟩ :
      hasRef ["please", "order", "a", "coffee"] = true ∧
        grammarOf ["please", "order", "a", "coffee"] ["please", "order", "coffee"] []
          < 8/10)]
    rw [if_pos (⟨by decide, by rw [hMiss]; simp⟩ :
      hasRef ["please", "order", "a", "coffee"] = true ∧
        missingOf ["please", "order", "a", "coffee"] ["please", "order", "coffee"] []
          ≠ [])]
    rw [hMiss]
    by_cases hsp : speedOf env.exp (wpmOf "" [] {}) < 45/100
    · rw [if_pos hsp, capFeedback_eq_take]
      simp
    · rw [if_neg hsp, capFeedback_eq_take]
      simp

/-- Witness for C8: the scenario theorem applied at the concrete
platform. -/
theorem C8_coffee_witness :
    (scoreAttempt1 icuEnv inpCoffee).grammar = 0 ∧
    (scoreAttempt1 icuEnv inpCoffee).meta.wer = some 1 ∧
    fbMissingOf ["please", "order", "coffee"] ∈
      (scoreAttempt1 icuEnv inpCoffee).feedback := by
  have h := C8_coffee_scenario icuEnv (by decide) (by decide) (by decide) (by decide)
    (by decide) (by decide) (by decide) (by decide) (by decide) (by decide) (by decide)
    (by decide) (by decide)
  exact ⟨h.2.2.2.1, h.2.1, h.2.2.2.2⟩

theorem werOf_coffee :
    werOf ["please", "order", "a", "coffee"] ["please", "order", "coffee"] [] = 1 := by
  unfold werOf
  rw [if_pos (by decide : hasRef ["please", "order", "a", "coffee"] = true)]
  exact wer_coffee

/-- C8 counterexample: in the scenario of the claim the returned
pronunciation sub-score is 8, not approximately 20 — the 0.2 floor enters
only through the 0.4-weighted phonetic blend. -/
theorem C8_coffee_cex :
    (scoreAttempt1 icuEnv inpCoffee).pronunciation = 8 ∧
      (scoreAttempt1 icuEnv inpCoffee).pronunciation ≠ 20 := by
  have hrt : refTokens1 icuEnv inpCoffee = ["please", "order", "a", "coffee"] := by decide
  have hrf : refFiltered1 icuEnv inpCoffee = ["please", "order", "coffee"] := by decide
  have hhf : hypFiltered1 icuEnv inpCoffee = [] := by decide
  have p : (scoreAttempt1 icuEnv inpCoffee).pronunciation = 8 := by
    show scaleScore true (PronOf (refTokens1 icuEnv inpCoffee)
      (refFiltered1 icuEnv inpCoffee) (hypFiltered1 icuEnv inpCoffee) * 100) = 8
    rw [hrt, hrf, hhf, pron_of_wer_one _ _ _ (by decide) werOf_coffee]
    have hz8 : round (2/25 * 100 : ℚ) = 8 := by
      rw [show (2/25 * 100 : ℚ) = 8 from by norm_num, round_eq]
      norm_num
    exact scaleScore_eval true _ 8 hz8 (by norm_num) (by norm_num)
  refine ⟨p, ?_⟩
  rw [p]
  decide
